import Mathlib

/-!
# Technician Booking System — formal model and verification

A shallow embedding of the technician-booking-system repository: the
Booking Store with its create/cancel/delete-all operations, the Conflict
Detector, the Availability Calculator, and the frontend chat submission
logic (`App.jsx`, `ChatInput.jsx`).

The backend service (FastAPI `main.py`, `models.py`) is not part of the
source tree available here; only its README declarations and the
specification describe it.  Definitions for those components are modelled
from the spec and marked as such in their doc comments.  The frontend
React code is present and those definitions are translated from it
directly.

Times are modelled as natural numbers counting minutes; a calendar date is
a day index `d`, covering minutes `[d*1440, (d+1)*1440)`.  Appointment
duration is fixed at 60 minutes.
-/

namespace Booking

/-- Technician record, fields as in the database schema
(id, name, type, working_hours_start, working_hours_end, is_active). -/
structure Technician where
  id : Nat
  name : String
  ttype : String
  working_hours_start : Nat
  working_hours_end : Nat
  is_active : Bool
deriving DecidableEq, Repr

/-- Booking status enum: {booked, cancelled}. -/
inductive BStatus where
  | booked
  | cancelled
deriving DecidableEq, Repr

/-- Booking record (id, technician_id, booking_time, description, status).
`booking_time` is in absolute minutes; duration is implicitly one hour. -/
structure Bkg where
  id : Nat
  technician_id : Nat
  booking_time : Nat
  description : String
  status : BStatus
deriving DecidableEq, Repr

/-- The error taxonomy of the system (spec §7). -/
inductive DomainError where
  | TechnicianNotFound
  | UnavailableTechnician
  | BookingNotFound
  | TimeOutsideWorkingHours
  | SchedulingConflict
  | InvalidTime
  | InterpreterUnavailable
  | UnknownIntent
deriving DecidableEq, Repr

/-- The Booking Store state: the authoritative lists of technicians and
bookings, plus the next booking id to assign. -/
structure Store where
  technicians : List Technician
  bookings : List Bkg
  nextId : Nat
deriving Repr

/-- Modelled from the spec: the Conflict Detector
`hasConflict(technician_id, proposed_start, duration)`.  A booking
conflicts iff it belongs to the same technician, has status=booked, and
its one-hour half-open interval overlaps the proposed half-open interval:
`proposed_start < existing_end AND existing_start < proposed_end`. -/
def hasConflict (bookings : List Bkg) (tid propStart dur : Nat) : Bool :=
  bookings.any fun b =>
    b.technician_id == tid && b.status == BStatus.booked &&
      decide (propStart < b.booking_time + 60) &&
      decide (b.booking_time < propStart + dur)

/-- Minute-of-day of an absolute minute timestamp. -/
def minuteOfDay (t : Nat) : Nat := t % 1440

/-- Modelled from the spec: the working-hours check used by
`createBooking`.  The requested one-hour appointment must lie inside the
technician's working-hours window `[start*60, end*60)` on its day;
otherwise the time "falls outside the technician's working-hours
window". -/
def withinWorkingHours (tech : Technician) (time : Nat) : Bool :=
  decide (tech.working_hours_start * 60 ≤ minuteOfDay time) &&
    decide (minuteOfDay time + 60 ≤ tech.working_hours_end * 60)

/-- Look up a technician by id. -/
def findTechnician (s : Store) (tid : Nat) : Option Technician :=
  s.technicians.find? fun t => t.id == tid

/-- Modelled from the spec: the Booking Store operation
`createBooking(technician_id, time, description)`.  Fails with
`TechnicianNotFound` if the id is unknown or the technician inactive,
with `TimeOutsideWorkingHours` if the time falls outside the working
hours, with `SchedulingConflict` if the Conflict Detector reports an
overlap; otherwise persists a new booking with status=booked and returns
it.  The store is returned unchanged on every failure. -/
def createBooking (s : Store) (tid time : Nat) (desc : String) :
    Except DomainError Bkg × Store :=
  match findTechnician s tid with
  | none => (Except.error DomainError.TechnicianNotFound, s)
  | some t =>
    if !t.is_active then (Except.error DomainError.TechnicianNotFound, s)
    else if !withinWorkingHours t time then
      (Except.error DomainError.TimeOutsideWorkingHours, s)
    else if hasConflict s.bookings tid time 60 then
      (Except.error DomainError.SchedulingConflict, s)
    else
      let b : Bkg := ⟨s.nextId, tid, time, desc, BStatus.booked⟩
      (Except.ok b, { s with bookings := s.bookings ++ [b], nextId := s.nextId + 1 })

/-- Set a booking's status to cancelled. -/
def markCancelled (b : Bkg) : Bkg := { b with status := BStatus.cancelled }

/-- Modelled from the spec: `cancelBooking(id)`.  Fails with
`BookingNotFound` when no booking with this id currently has
status=booked (absent or already cancelled — never silent success);
otherwise marks the booking cancelled and returns it.  The store is
returned unchanged on failure. -/
def cancelBooking (s : Store) (bid : Nat) : Except DomainError Bkg × Store :=
  match s.bookings.find? (fun b => b.id == bid && b.status == BStatus.booked) with
  | none => (Except.error DomainError.BookingNotFound, s)
  | some b =>
    (Except.ok (markCancelled b),
     { s with bookings := s.bookings.map fun c => if c.id == bid then markCancelled c else c })

/-- Modelled from the spec: `deleteAllBookings()`.  Marks every
status=booked booking as cancelled and returns the number affected
(0 when none exist, not an error). -/
def deleteAllBookings (s : Store) : Nat × Store :=
  ((s.bookings.filter fun b => b.status == BStatus.booked).length,
   { s with bookings :=
       s.bookings.map fun b => if b.status == BStatus.booked then markCancelled b else b })

/-- Insert a booking into a list sorted by booking_time ascending. -/
def insertByTime (b : Bkg) : List Bkg → List Bkg
  | [] => [b]
  | c :: cs => if b.booking_time ≤ c.booking_time then b :: c :: cs else c :: insertByTime b cs

/-- Sort a list of bookings by booking_time ascending. -/
def sortByTime (l : List Bkg) : List Bkg := l.foldr insertByTime []

/-- Modelled from the spec: `listBookings()` — the status=booked bookings
ordered by booking_time ascending (cancelled bookings excluded). -/
def listBookings (s : Store) : List Bkg :=
  sortByTime (s.bookings.filter fun b => b.status == BStatus.booked)

/-- Two distinct bookings conflict when both are booked for the same
technician and their one-hour half-open intervals overlap. -/
def Conflicting (b1 b2 : Bkg) : Prop :=
  b1.status = BStatus.booked ∧ b2.status = BStatus.booked ∧
    b1.technician_id = b2.technician_id ∧
    b1.booking_time < b2.booking_time + 60 ∧ b2.booking_time < b1.booking_time + 60

instance (b1 b2 : Bkg) : Decidable (Conflicting b1 b2) := by
  unfold Conflicting; infer_instance

/-- The Booking Store invariant: no two bookings with status=booked for
the same technician have overlapping one-hour intervals. -/
def StoreInv (s : Store) : Prop :=
  s.bookings.Pairwise fun b1 b2 => ¬ Conflicting b1 b2

instance (s : Store) : Decidable (StoreInv s) := by
  unfold StoreInv; infer_instance

/-- A Booking Store operation: one of the three mutating verbs. -/
inductive Op where
  | create (tid time : Nat) (desc : String)
  | cancel (bid : Nat)
  | deleteAll
deriving Repr

/-- Apply one operation to the store, keeping the resulting state
(whether the operation succeeded or failed). -/
def applyOp (s : Store) : Op → Store
  | Op.create tid time desc => (createBooking s tid time desc).2
  | Op.cancel bid => (cancelBooking s bid).2
  | Op.deleteAll => (deleteAllBookings s).2

/-- Run a sequence of operations from a state; the states this reaches
are exactly the reachable states of the Booking Store. -/
def runOps (s : Store) (ops : List Op) : Store := ops.foldl applyOp s

/-- Modelled from the spec: the bookings of a technician with
status=booked whose one-hour interval overlaps calendar date `d`
(minutes `[d*1440, (d+1)*1440)`), as a list of their start minutes. -/
def bookedStartsOn (bookings : List Bkg) (tech : Technician) (d : Nat) : List Nat :=
  (bookings.filter fun b =>
      b.technician_id == tech.id && b.status == BStatus.booked &&
        decide (b.booking_time < (d + 1) * 1440) &&
        decide (d * 1440 < b.booking_time + 60)).map
    fun b => b.booking_time

/-- Modelled from the spec: the free-slot sweep of the Availability
Calculator.  Starting from the current position `cur`, walk the sorted
booked start minutes, emitting each nonempty free gap before a booked
interval and finally the gap up to the end `stop` of the working-hours
window. -/
def slotsAux (cur stop : Nat) : List Nat → List (Nat × Nat)
  | [] => if cur < stop then [(cur, stop)] else []
  | s :: rest =>
    (if cur < min s stop then [(cur, min s stop)] else []) ++
      slotsAux (max cur (s + 60)) stop rest

/-- Modelled from the spec: the Availability Calculator
`availableSlots(technician, date)`.  Fails with `UnavailableTechnician`
for an inactive technician; otherwise subtracts every booked interval of
the technician overlapping the date from the technician's working-hours
interval on that date, producing the complement as a chronologically
ordered sequence of free sub-intervals (empty when fully booked, not an
error). -/
def availableSlots (s : Store) (tech : Technician) (d : Nat) :
    Except DomainError (List (Nat × Nat)) :=
  if tech.is_active then
    Except.ok
      (slotsAux (d * 1440 + tech.working_hours_start * 60)
        (d * 1440 + tech.working_hours_end * 60)
        (List.insertionSort (· ≤ ·) (bookedStartsOn s.bookings tech d)))
  else Except.error DomainError.UnavailableTechnician

/-- Whether an `Except` result is a success. -/
def isOkE {α : Type} (e : Except DomainError α) : Bool :=
  match e with
  | Except.ok _ => true
  | Except.error _ => false

/-- Seed technician "Nicolas Woollett" (plumber, hours 9–17). -/
def nicolas : Technician :=
  { id := 1, name := "Nicolas Woollett", ttype := "plumber",
    working_hours_start := 9, working_hours_end := 17, is_active := true }

/-- The seed booking of Nicolas Woollett at 10:00 (minute 600 of day 0). -/
def seedBooking : Bkg :=
  { id := 1, technician_id := 1, booking_time := 600,
    description := "Fix leaky faucet", status := BStatus.booked }

/-- A store with the seed technician and booking, as in the scenario of
spec §8. -/
def demoStore : Store :=
  { technicians := [nicolas], bookings := [seedBooking], nextId := 2 }

end Booking

namespace Frontend

/-- A chat message held in the React `messages` state
(`type` is "user" or "system"/"assistant"). -/
structure ChatMsg where
  mtype : String
  text : String
deriving DecidableEq, Repr

/-- One entry of the `conversation_history` payload sent to the backend
(`role`, `content`). -/
structure HistMsg where
  role : String
  content : String
deriving DecidableEq, Repr

/-- From `App.jsx` `handleSubmit`: the `conversation_history` array —
`[...messages.slice(-5), { type: "user", text: currentInput }]` mapped to
`{ role, content }` records. -/
def conversationHistory (messages : List ChatMsg) (currentInput : String) :
    List HistMsg :=
  (messages.drop (messages.length - 5) ++ [ChatMsg.mk "user" currentInput]).map
    fun m : ChatMsg =>
      { role := if m.mtype == "user" then "user" else "assistant",
        content := m.text }

/-- The JavaScript `String.prototype.trim`: strip leading and trailing
whitespace (structurally recursive so concrete inputs evaluate). -/
def trimJS (s : String) : String :=
  String.mk (((s.data.dropWhile Char.isWhitespace).reverse.dropWhile
    Char.isWhitespace).reverse)

/-- The mutable state of the `App` component that `handleSubmit` touches. -/
structure AppState where
  userInput : String
  messages : List ChatMsg
  loading : Bool
deriving Repr

/-- The request `handleSubmit` posts to `/process-request/`. -/
structure Request where
  message : String
  conversation_history : List HistMsg
deriving Repr

/-- From `App.jsx` `handleSubmit`, up to the point the request is posted:
on empty trimmed input it returns at once (no state change, no request);
otherwise it clears the input, appends the user message, sets loading and
posts the trimmed text with the conversation history built from the prior
messages. -/
def handleSubmitStep (st : AppState) : AppState × Option Request :=
  if trimJS st.userInput == "" then (st, none)
  else
    let currentInput := trimJS st.userInput
    ({ userInput := "",
       messages := st.messages ++ [⟨"user", currentInput⟩],
       loading := true },
     some ⟨currentInput, conversationHistory st.messages currentInput⟩)

/-- From `ChatInput.jsx`: the submit button's `disabled` prop,
`loading || !userInput.trim()`. -/
def submitDisabled (loading : Bool) (userInput : String) : Bool :=
  loading || (trimJS userInput == "")

/-- The response record of `/process-request/` as the frontend consumes
it: `data.error`, `data.message` and `data.booking` (the created booking,
when one was committed). -/
structure ProcessResponse where
  message : String
  error : Option String
  booking : Option Booking.Bkg
deriving Repr

/-- The response fields `handleSubmit` reads from the
`/process-request/` payload in `App.jsx`. -/
def processResponseFieldsRead : List String := ["error", "message", "booking"]

/-- From `App.jsx` `handleSubmit`, after the response arrives: with an
`error` field the error text is shown; otherwise `message` is shown and
the booking list is refetched exactly when `booking` is present.  Returns
the text appended to the chat and whether `fetchBookings` runs. -/
def handleResponse (r : ProcessResponse) : String × Bool :=
  match r.error with
  | some e => (e, false)
  | none => (r.message, r.booking.isSome)

end Frontend

namespace Booking

/-! ## Theorems -/

/-- C2: `hasConflict` returns true iff some booking with status=booked for
the same technician overlaps the proposed half-open interval
(`proposed_start < existing_end AND existing_start < proposed_end`); a
proposed booking whose interval is back-to-back with every relevant
booking does not conflict, and cancelled bookings never conflict. -/
theorem hasConflict_correct (bookings : List Bkg) (tid propStart dur : Nat) :
    (hasConflict bookings tid propStart dur = true ↔
      ∃ b ∈ bookings, b.technician_id = tid ∧ b.status = BStatus.booked ∧
        propStart < b.booking_time + 60 ∧ b.booking_time < propStart + dur) ∧
    ((∀ b ∈ bookings, b.technician_id = tid → b.status = BStatus.booked →
        b.booking_time + 60 ≤ propStart ∨ propStart + dur ≤ b.booking_time) →
      hasConflict bookings tid propStart dur = false) ∧
    ((∀ b ∈ bookings, b.status = BStatus.cancelled) →
      hasConflict bookings tid propStart dur = false) := by
  have hiff : hasConflict bookings tid propStart dur = true ↔
      ∃ b ∈ bookings, b.technician_id = tid ∧ b.status = BStatus.booked ∧
        propStart < b.booking_time + 60 ∧ b.booking_time < propStart + dur := by
    simp [hasConflict, List.any_eq_true, and_assoc]
  refine ⟨hiff, ?_, ?_⟩
  · intro hsep
    rw [← Bool.not_eq_true, hiff]
    rintro ⟨b, hb, hbt, hbs, h1, h2⟩
    rcases hsep b hb hbt hbs with h | h <;> omega
  · intro hcan
    rw [← Bool.not_eq_true, hiff]
    rintro ⟨b, hb, hbt, hbs, h1, h2⟩
    have := hcan b hb
    rw [this] at hbs
    exact BStatus.noConfusion hbs

/-- Witness for C2: the spec §8 scenario — a proposed 10:30 booking
conflicts with the seed 10:00 booking, a proposed 11:00 booking
(back-to-back) does not. -/
theorem hasConflict_correct_witness :
    hasConflict demoStore.bookings 1 630 60 = true ∧
    hasConflict demoStore.bookings 1 660 60 = false :=
  ⟨(hasConflict_correct demoStore.bookings 1 630 60).1.mpr
      ⟨seedBooking, by decide, by decide, by decide, by decide, by decide⟩,
   (hasConflict_correct demoStore.bookings 1 660 60).2.1 (by decide)⟩

/-- C5: `cancelBooking` fails with `BookingNotFound`, leaving the store
unchanged, when no booking with the id currently has status=booked
(absent or already cancelled); consequently a second cancellation of a
just-cancelled booking fails with `BookingNotFound` and leaves the store
unchanged. -/
theorem cancelBooking_idempotence_of_failure (s : Store) (bid : Nat) :
    (s.bookings.find? (fun b => b.id == bid && b.status == BStatus.booked) = none →
      cancelBooking s bid = (Except.error DomainError.BookingNotFound, s)) ∧
    (∀ b s₁, cancelBooking s bid = (Except.ok b, s₁) →
      cancelBooking s₁ bid = (Except.error DomainError.BookingNotFound, s₁)) := by
  constructor
  · intro hnone
    unfold cancelBooking
    rw [hnone]
  · intro b s₁ hok
    unfold cancelBooking at hok
    cases hfind : s.bookings.find? (fun b => b.id == bid && b.status == BStatus.booked) with
    | none => rw [hfind] at hok; exact absurd (congrArg Prod.fst hok) (by simp)
    | some c =>
      rw [hfind] at hok
      have hs₁ : s₁ =
          { s with bookings := s.bookings.map fun c => if c.id == bid then markCancelled c else c } :=
        (congrArg Prod.snd hok).symm
      have hnone : s₁.bookings.find?
          (fun b => b.id == bid && b.status == BStatus.booked) = none := by
        rw [hs₁]
        simp only [List.find?_eq_none, List.mem_map]
        rintro x ⟨y, hy, rfl⟩
        by_cases hid : y.id == bid
        · simp [hid, markCancelled]
        · simp [hid]
      unfold cancelBooking
      rw [hnone]

/-- Witness for C5: cancelling the seed booking succeeds once; the second
cancellation fails with `BookingNotFound` and leaves the store unchanged;
cancelling the absent id 999 fails at once. -/
theorem cancelBooking_idempotence_of_failure_witness :
    (cancelBooking demoStore 999 = (Except.error DomainError.BookingNotFound, demoStore)) ∧
    cancelBooking (cancelBooking demoStore 1).2 1 =
      (Except.error DomainError.BookingNotFound, (cancelBooking demoStore 1).2) :=
  ⟨(cancelBooking_idempotence_of_failure demoStore 999).1 (by decide),
   (cancelBooking_idempotence_of_failure demoStore 1).2
      (markCancelled seedBooking) (cancelBooking demoStore 1).2 rfl⟩

/-- C6: `deleteAllBookings` returns the number of status=booked bookings
it cancelled (0 when none exist), leaves every booking cancelled,
`listBookings` right after returns the empty sequence, and a second
`deleteAllBookings` returns count 0 and changes nothing. -/
theorem deleteAllBookings_spec (s : Store) :
    (deleteAllBookings s).1 =
      (s.bookings.filter fun b => b.status == BStatus.booked).length ∧
    (∀ b ∈ (deleteAllBookings s).2.bookings, b.status = BStatus.cancelled) ∧
    listBookings (deleteAllBookings s).2 = [] ∧
    deleteAllBookings (deleteAllBookings s).2 = (0, (deleteAllBookings s).2) := by
  have hall : ∀ b ∈ (deleteAllBookings s).2.bookings, b.status = BStatus.cancelled := by
    unfold deleteAllBookings
    simp only [List.mem_map]
    rintro x ⟨y, hy, rfl⟩
    by_cases hst : y.status == BStatus.booked
    · simp [hst, markCancelled]
    · simp only [hst]
      simp only [beq_iff_eq] at hst
      cases h : y.status with
      | booked => exact absurd h hst
      | cancelled => simp [h]
  have hfilter : ((deleteAllBookings s).2.bookings.filter
      fun b => b.status == BStatus.booked) = [] := by
    rw [List.filter_eq_nil_iff]
    intro b hb
    rw [hall b hb]
    decide
  refine ⟨rfl, hall, ?_, ?_⟩
  · unfold listBookings
    rw [hfilter]
    rfl
  · have hmap : ((deleteAllBookings s).2.bookings.map
        fun b => if b.status == BStatus.booked then markCancelled b else b) =
        (deleteAllBookings s).2.bookings := by
      conv_rhs => rw [← List.map_id (deleteAllBookings s).2.bookings]
      refine List.map_congr_left ?_
      intro b hb
      rw [hall b hb]
      rfl
    generalize hgen : (deleteAllBookings s).2 = s₁ at hfilter hmap ⊢
    unfold deleteAllBookings
    rw [hfilter, hmap]
    rfl

/-- Witness for C6: `deleteAllBookings` on the demo store cancels the one
booked booking, an immediate `listBookings` returns the empty sequence,
and a second `deleteAllBookings` returns count 0. -/
theorem deleteAllBookings_spec_witness :
    (deleteAllBookings demoStore).1 = 1 ∧
    listBookings (deleteAllBookings demoStore).2 = [] ∧
    (deleteAllBookings (deleteAllBookings demoStore).2).1 = 0 :=
  ⟨(deleteAllBookings_spec demoStore).1.trans (by decide),
   (deleteAllBookings_spec demoStore).2.2.1,
   congrArg Prod.fst (deleteAllBookings_spec demoStore).2.2.2⟩

end Booking

namespace Booking

/-- Helper: mapping a function that either keeps a booking unchanged or
marks it cancelled preserves the no-conflict pairwise invariant. -/
theorem pairwise_nonconflicting_map (f : Bkg → Bkg)
    (hf : ∀ b, f b = b ∨ (f b).status = BStatus.cancelled)
    (l : List Bkg) (h : l.Pairwise fun b1 b2 => ¬ Conflicting b1 b2) :
    (l.map f).Pairwise fun b1 b2 => ¬ Conflicting b1 b2 := by
  refine List.Pairwise.map f ?_ h
  intro a b hab hc
  rcases hf a with ha | ha
  · rcases hf b with hb | hb
    · rw [ha, hb] at hc
      exact hab hc
    · rw [hc.2.1] at hb
      exact BStatus.noConfusion hb
  · rw [hc.1] at ha
    exact BStatus.noConfusion ha

/-- Helper: each single Booking Store operation preserves the
no-overlapping-booked-bookings invariant. -/
theorem storeInv_applyOp (s : Store) (op : Op) (h : StoreInv s) :
    StoreInv (applyOp s op) := by
  cases op with
  | create tid time desc =>
    show StoreInv (createBooking s tid time desc).2
    unfold createBooking
    cases hfind : findTechnician s tid with
    | none => exact h
    | some t =>
      by_cases hact : t.is_active
      · by_cases hwh : withinWorkingHours t time
        · by_cases hconf : hasConflict s.bookings tid time 60
          · simp only [hact, hwh, hconf, Bool.not_true, Bool.false_eq_true,
              if_false, if_true]
            exact h
          · simp only [hact, hwh, hconf, Bool.not_true, Bool.false_eq_true,
              if_false, if_true]
            show (s.bookings ++ [Bkg.mk s.nextId tid time desc BStatus.booked]).Pairwise
              fun b1 b2 => ¬ Conflicting b1 b2
            rw [List.pairwise_append]
            refine ⟨h, List.pairwise_singleton _ _, ?_⟩
            intro a ha b hb
            rw [List.mem_singleton] at hb
            subst hb
            rintro ⟨has, -, hat, hov1, hov2⟩
            simp only at hat hov1 hov2
            refine hconf ?_
            rw [hasConflict, List.any_eq_true]
            refine ⟨a, ha, ?_⟩
            simp only [Bool.and_eq_true, beq_iff_eq, decide_eq_true_eq]
            exact ⟨⟨⟨hat, has⟩, hov2⟩, hov1⟩
        · simp only [hact, hwh, Bool.not_true, Bool.not_false, Bool.false_eq_true,
            if_false, if_true]
          exact h
      · simp only [Bool.not_eq_true] at hact
        simp only [hact, Bool.not_false, if_true]
        exact h
  | cancel bid =>
    show StoreInv (cancelBooking s bid).2
    unfold cancelBooking
    cases hfind : s.bookings.find? (fun b => b.id == bid && b.status == BStatus.booked) with
    | none => exact h
    | some c =>
      refine pairwise_nonconflicting_map _ ?_ _ h
      intro b
      by_cases hid : b.id == bid
      · right; simp [hid, markCancelled]
      · left; simp [hid]
  | deleteAll =>
    show StoreInv (deleteAllBookings s).2
    unfold deleteAllBookings
    refine pairwise_nonconflicting_map _ ?_ _ h
    intro b
    by_cases hst : b.status == BStatus.booked
    · right; simp [hst, markCancelled]
    · left; simp [hst]

/-- C1: from any state satisfying the Booking Store invariant, every
state reachable through the store operations (createBooking,
cancelBooking, deleteAllBookings) still has no two bookings with
status=booked for the same technician with overlapping one-hour
intervals. -/
theorem storeInv_reachable (s : Store) (h : StoreInv s) (ops : List Op) :
    StoreInv (runOps s ops) := by
  induction ops generalizing s with
  | nil => exact h
  | cons op rest ih => exact ih (applyOp s op) (storeInv_applyOp s op h)

/-- Witness for C1: the demo store satisfies the invariant and keeps it
through a create (back-to-back at 11:00), a cancel and a bulk delete. -/
theorem storeInv_reachable_witness :
    StoreInv (runOps demoStore
      [Op.create 1 660 "water heater", Op.cancel 1, Op.deleteAll]) :=
  storeInv_reachable demoStore (by decide)
    [Op.create 1 660 "water heater", Op.cancel 1, Op.deleteAll]

end Booking

namespace Booking

/-- C4: `createBooking` fails with `TechnicianNotFound` iff the id is
unknown or the technician inactive, with `TimeOutsideWorkingHours` iff
the time falls outside the working-hours window, with
`SchedulingConflict` iff the Conflict Detector reports overlap; every
failure leaves the store unchanged, and in exactly the remaining case it
persists a new booking with status=booked and returns it. -/
theorem createBooking_cases (s : Store) (tid time : Nat) (desc : String) :
    ((createBooking s tid time desc).1 = Except.error DomainError.TechnicianNotFound ↔
      findTechnician s tid = none ∨
        ∃ t, findTechnician s tid = some t ∧ t.is_active = false) ∧
    ((createBooking s tid time desc).1 = Except.error DomainError.TimeOutsideWorkingHours ↔
      ∃ t, findTechnician s tid = some t ∧ t.is_active = true ∧
        withinWorkingHours t time = false) ∧
    ((createBooking s tid time desc).1 = Except.error DomainError.SchedulingConflict ↔
      ∃ t, findTechnician s tid = some t ∧ t.is_active = true ∧
        withinWorkingHours t time = true ∧ hasConflict s.bookings tid time 60 = true) ∧
    (isOkE (createBooking s tid time desc).1 = false →
      (createBooking s tid time desc).2 = s) ∧
    ((∃ t, findTechnician s tid = some t ∧ t.is_active = true ∧
        withinWorkingHours t time = true ∧ hasConflict s.bookings tid time 60 = false) →
      ∃ b, (createBooking s tid time desc).1 = Except.ok b ∧
        b.status = BStatus.booked ∧ b.technician_id = tid ∧ b.booking_time = time ∧
        (createBooking s tid time desc).2.bookings = s.bookings ++ [b]) := by
  cases hfind : findTechnician s tid with
  | none =>
    simp [createBooking, hfind, isOkE]
  | some t =>
    by_cases hact : t.is_active
    · by_cases hwh : withinWorkingHours t time
      · by_cases hconf : hasConflict s.bookings tid time 60
        · simp [createBooking, hfind, hact, hwh, hconf, isOkE]
        · simp only [Bool.not_eq_true] at hconf
          simp [createBooking, hfind, hact, hwh, hconf, isOkE]
      · simp only [Bool.not_eq_true] at hwh
        simp [createBooking, hfind, hact, hwh, isOkE]
    · simp only [Bool.not_eq_true] at hact
      simp [createBooking, hfind, hact, isOkE]

/-- Witness for C4: on the demo store, booking the plumber at 10:30
fails with `SchedulingConflict` while leaving the store unchanged. -/
theorem createBooking_cases_witness :
    (createBooking demoStore 1 630 "sink").1 =
      Except.error DomainError.SchedulingConflict ∧
    (createBooking demoStore 1 630 "sink").2 = demoStore := by
  have h := createBooking_cases demoStore 1 630 "sink"
  refine ⟨h.2.2.1.mpr ⟨nicolas, by decide, by decide, by decide, by decide⟩, ?_⟩
  refine h.2.2.2.1 ?_
  decide

/-- Helper: after a successful `createBooking`, a second create for the
same technician at an overlapping time fails with `SchedulingConflict`. -/
theorem create_after_create (s : Store) (tid ta tb : Nat) (da db : String)
    (hov : ta < tb + 60 ∧ tb < ta + 60)
    (ha : isOkE (createBooking s tid ta da).1 = true)
    (hb : isOkE (createBooking s tid tb db).1 = true) :
    (createBooking (createBooking s tid ta da).2 tid tb db).1 =
      Except.error DomainError.SchedulingConflict := by
  cases hfind : findTechnician s tid with
  | none => simp [createBooking, hfind, isOkE] at ha
  | some t =>
    by_cases hact : t.is_active
    swap
    · simp only [Bool.not_eq_true] at hact
      simp [createBooking, hfind, hact, isOkE] at ha
    by_cases hwha : withinWorkingHours t ta
    swap
    · simp only [Bool.not_eq_true] at hwha
      simp [createBooking, hfind, hact, hwha, isOkE] at ha
    by_cases hwhb : withinWorkingHours t tb
    swap
    · simp only [Bool.not_eq_true] at hwhb
      simp [createBooking, hfind, hact, hwhb, isOkE] at hb
    by_cases hconfa : hasConflict s.bookings tid ta 60
    · simp [createBooking, hfind, hact, hwha, hconfa, isOkE] at ha
    · simp only [Bool.not_eq_true] at hconfa
      have hs1 : (createBooking s tid ta da).2 =
          { s with bookings := s.bookings ++ [Bkg.mk s.nextId tid ta da BStatus.booked],
                   nextId := s.nextId + 1 } := by
        simp [createBooking, hfind, hact, hwha, hconfa]
      have hfind1 : findTechnician (createBooking s tid ta da).2 tid = some t := by
        rw [hs1]; exact hfind
      have hconf1 : hasConflict (createBooking s tid ta da).2.bookings tid tb 60 = true := by
        rw [hs1]
        rw [hasConflict, List.any_eq_true]
        refine ⟨Bkg.mk s.nextId tid ta da BStatus.booked, List.mem_append_right _ ?_, ?_⟩
        · exact List.mem_singleton.mpr rfl
        · simp [hov.1, hov.2]
      generalize hgen : (createBooking s tid ta da).2 = s₁ at hfind1 hconf1 ⊢
      simp [createBooking, hfind1, hact, hwhb, hconf1]

/-- C7: two CREATE requests for the same technician with overlapping
one-hour windows, each of which would succeed on its own, cannot both
succeed: under the atomic per-technician transactions of the store, in
either serialization order the first commits and the second observes
`SchedulingConflict`. -/
theorem concurrent_creates_exclusive (s : Store) (tid t1 t2 : Nat) (d1 d2 : String)
    (hov : t1 < t2 + 60 ∧ t2 < t1 + 60)
    (h1 : isOkE (createBooking s tid t1 d1).1 = true)
    (h2 : isOkE (createBooking s tid t2 d2).1 = true) :
    (createBooking (createBooking s tid t1 d1).2 tid t2 d2).1 =
      Except.error DomainError.SchedulingConflict ∧
    (createBooking (createBooking s tid t2 d2).2 tid t1 d1).1 =
      Except.error DomainError.SchedulingConflict :=
  ⟨create_after_create s tid t1 t2 d1 d2 hov h1 h2,
   create_after_create s tid t2 t1 d2 d1 ⟨hov.2, hov.1⟩ h2 h1⟩

/-- Witness for C7: two creates for the plumber at 13:00 and 13:30 on the
demo store each succeed alone, yet in both serialization orders the
second fails with `SchedulingConflict`. -/
theorem concurrent_creates_exclusive_witness :
    (createBooking (createBooking demoStore 1 780 "a").2 1 810 "b").1 =
      Except.error DomainError.SchedulingConflict ∧
    (createBooking (createBooking demoStore 1 810 "b").2 1 780 "a").1 =
      Except.error DomainError.SchedulingConflict :=
  concurrent_creates_exclusive demoStore 1 780 810 "a" "b"
    (by decide) (by decide) (by decide)

end Booking

namespace Booking

/-- Helper: every slot the sweep emits starts at or after the current
position, is nonempty, and ends by the end of the window. -/
theorem slotsAux_bounds (stop : Nat) (l : List Nat) :
    ∀ (cur : Nat), ∀ p ∈ slotsAux cur stop l, cur ≤ p.1 ∧ p.1 < p.2 ∧ p.2 ≤ stop := by
  induction l with
  | nil =>
    intro cur p hp
    simp only [slotsAux] at hp
    by_cases h : cur < stop
    · rw [if_pos h, List.mem_singleton] at hp
      subst hp
      exact ⟨le_refl _, h, le_refl _⟩
    · rw [if_neg h] at hp
      exact absurd hp (List.not_mem_nil p)
  | cons s rest ih =>
    intro cur p hp
    simp only [slotsAux, List.mem_append] at hp
    rcases hp with hp | hp
    · by_cases h : cur < min s stop
      · rw [if_pos h, List.mem_singleton] at hp
        subst hp
        exact ⟨le_refl _, h, min_le_right _ _⟩
      · rw [if_neg h] at hp
        exact absurd hp (List.not_mem_nil p)
    · have hq := ih (max cur (s + 60)) p hp
      exact ⟨le_trans (le_max_left _ _) hq.1, hq.2.1, hq.2.2⟩

/-- Helper: the slots the sweep emits are pairwise disjoint and in
chronological order (each ends no later than the next begins). -/
theorem slotsAux_chrono (stop : Nat) (l : List Nat) :
    ∀ (cur : Nat), (slotsAux cur stop l).Pairwise fun p q => p.2 ≤ q.1 := by
  induction l with
  | nil =>
    intro cur
    simp only [slotsAux]
    by_cases h : cur < stop
    · rw [if_pos h]; exact List.pairwise_singleton _ _
    · rw [if_neg h]; exact List.Pairwise.nil
  | cons s rest ih =>
    intro cur
    simp only [slotsAux]
    rw [List.pairwise_append]
    refine ⟨?_, ih _, ?_⟩
    · by_cases h : cur < min s stop
      · rw [if_pos h]; exact List.pairwise_singleton _ _
      · rw [if_neg h]; exact List.Pairwise.nil
    · intro p hp q hq
      by_cases h : cur < min s stop
      · rw [if_pos h, List.mem_singleton] at hp
        subst hp
        have hq1 := (slotsAux_bounds stop rest (max cur (s + 60)) q hq).1
        show min s stop ≤ q.1
        omega
      · rw [if_neg h] at hp
        exact absurd hp (List.not_mem_nil p)

/-- Helper: with sorted booked starts, a minute lies in some emitted free
slot iff it lies in the window `[cur, stop)` and in no booked one-hour
interval — the sweep computes exactly the complement. -/
theorem slotsAux_cover (stop : Nat) :
    ∀ (l : List Nat), l.Pairwise (· ≤ ·) → ∀ (cur m : Nat),
      ((∃ p ∈ slotsAux cur stop l, p.1 ≤ m ∧ m < p.2) ↔
        (cur ≤ m ∧ m < stop ∧ ∀ x ∈ l, ¬(x ≤ m ∧ m < x + 60))) := by
  intro l
  induction l with
  | nil =>
    intro _ cur m
    by_cases h : cur < stop
    · simp [slotsAux, h]
    · simp [slotsAux, h]
      omega
  | cons s rest ih =>
    intro hsort cur m
    have hs : ∀ x ∈ rest, s ≤ x := (List.pairwise_cons.mp hsort).1
    have ihr := ih (List.pairwise_cons.mp hsort).2
    simp only [slotsAux, List.mem_append]
    constructor
    · rintro ⟨p, hp | hp, hm1, hm2⟩
      · by_cases h : cur < min s stop
        · rw [if_pos h, List.mem_singleton] at hp
          subst hp
          simp only at hm1 hm2
          refine ⟨hm1, by omega, ?_⟩
          intro x hx
          rcases List.mem_cons.mp hx with rfl | hx
          · omega
          · have := hs x hx
            omega
        · rw [if_neg h] at hp
          exact absurd hp (List.not_mem_nil p)
      · have hcov := (ihr (max cur (s + 60)) m).mp ⟨p, hp, hm1, hm2⟩
        refine ⟨by omega, hcov.2.1, ?_⟩
        intro x hx
        rcases List.mem_cons.mp hx with rfl | hx
        · omega
        · exact hcov.2.2 x hx
    · rintro ⟨hcm, hms, havoid⟩
      by_cases hcase : m < s
      · have hlt : cur < min s stop := by omega
        refine ⟨(cur, min s stop), Or.inl ?_, hcm, ?_⟩
        · rw [if_pos hlt]
          exact List.mem_singleton.mpr rfl
        · show m < min s stop
          omega
      · have hxs := havoid s (List.mem_cons_self s rest)
        have hrec := (ihr (max cur (s + 60)) m).mpr
          ⟨by omega, hms, fun x hx => havoid x (List.mem_cons_of_mem s hx)⟩
        rcases hrec with ⟨p, hp, h1, h2⟩
        exact ⟨p, Or.inr hp, h1, h2⟩

/-- C3: for an active technician, `availableSlots` succeeds (even on a
fully booked day) with a sequence of nonempty, pairwise disjoint,
chronologically ordered free slots which, together with the
status=booked intervals of the technician on the date (assumed inside
the working window and pairwise disjoint, as the store invariant
guarantees), partition the working-hours interval exactly: every minute
of the window is either free or booked, never both, and nothing outside
the window is covered. -/
theorem availableSlots_partition (s : Store) (tech : Technician) (d : Nat)
    (hact : tech.is_active = true)
    (hin : ∀ t ∈ bookedStartsOn s.bookings tech d,
      d * 1440 + tech.working_hours_start * 60 ≤ t ∧
        t + 60 ≤ d * 1440 + tech.working_hours_end * 60)
    (hdisj : (bookedStartsOn s.bookings tech d).Pairwise
      fun a b => a + 60 ≤ b ∨ b + 60 ≤ a) :
    ∃ slots, availableSlots s tech d = Except.ok slots ∧
      (∀ p ∈ slots, p.1 < p.2) ∧
      slots.Pairwise (fun p q => p.2 ≤ q.1) ∧
      (bookedStartsOn s.bookings tech d).Pairwise
        (fun a b => a + 60 ≤ b ∨ b + 60 ≤ a) ∧
      (∀ m, ¬((∃ p ∈ slots, p.1 ≤ m ∧ m < p.2) ∧
        ∃ t ∈ bookedStartsOn s.bookings tech d, t ≤ m ∧ m < t + 60)) ∧
      (∀ m, ((∃ p ∈ slots, p.1 ≤ m ∧ m < p.2) ∨
          (∃ t ∈ bookedStartsOn s.bookings tech d, t ≤ m ∧ m < t + 60)) ↔
        (d * 1440 + tech.working_hours_start * 60 ≤ m ∧
          m < d * 1440 + tech.working_hours_end * 60)) := by
  set lo := d * 1440 + tech.working_hours_start * 60 with hlo
  set hi := d * 1440 + tech.working_hours_end * 60 with hhi
  set L := bookedStartsOn s.bookings tech d with hL
  set LS := List.insertionSort (· ≤ ·) L with hLS
  have hsorted : LS.Pairwise (· ≤ ·) := List.sorted_insertionSort (· ≤ ·) L
  have hmemiff : ∀ x, x ∈ LS ↔ x ∈ L :=
    fun x => (List.perm_insertionSort (· ≤ ·) L).mem_iff
  refine ⟨slotsAux lo hi LS, ?_, ?_, ?_, hdisj, ?_, ?_⟩
  · simp [availableSlots, hact, hlo, hhi, hL, hLS]
  · intro p hp
    exact (slotsAux_bounds hi LS lo p hp).2.1
  · exact slotsAux_chrono hi LS lo
  · rintro m ⟨hfree, t, ht, h1, h2⟩
    have hcov := (slotsAux_cover hi LS hsorted lo m).mp hfree
    exact (hcov.2.2 t ((hmemiff t).mpr ht)) ⟨h1, h2⟩
  · intro m
    constructor
    · rintro (hfree | ⟨t, ht, h1, h2⟩)
      · have hcov := (slotsAux_cover hi LS hsorted lo m).mp hfree
        exact ⟨hcov.1, hcov.2.1⟩
      · have hwin := hin t ht
        omega
    · intro hm
      by_cases hbooked : ∃ t ∈ L, t ≤ m ∧ m < t + 60
      · exact Or.inr hbooked
      · push_neg at hbooked
        refine Or.inl ((slotsAux_cover hi LS hsorted lo m).mpr ⟨hm.1, hm.2, ?_⟩)
        rintro x hx ⟨hx1, hx2⟩
        have hxm := hbooked x ((hmemiff x).mp hx) hx1
        omega

/-- Witness for C3: on the demo store (Nicolas, hours 9–17, one booking
at 10:00 on day 0) the partition property holds; in particular the
computation succeeds. -/
theorem availableSlots_partition_witness :
    ∃ slots, availableSlots demoStore nicolas 0 = Except.ok slots ∧
      (∀ p ∈ slots, p.1 < p.2) ∧
      slots.Pairwise (fun p q => p.2 ≤ q.1) ∧
      (bookedStartsOn demoStore.bookings nicolas 0).Pairwise
        (fun a b => a + 60 ≤ b ∨ b + 60 ≤ a) ∧
      (∀ m, ¬((∃ p ∈ slots, p.1 ≤ m ∧ m < p.2) ∧
        ∃ t ∈ bookedStartsOn demoStore.bookings nicolas 0, t ≤ m ∧ m < t + 60)) ∧
      (∀ m, ((∃ p ∈ slots, p.1 ≤ m ∧ m < p.2) ∨
          (∃ t ∈ bookedStartsOn demoStore.bookings nicolas 0, t ≤ m ∧ m < t + 60)) ↔
        (0 * 1440 + nicolas.working_hours_start * 60 ≤ m ∧
          m < 0 * 1440 + nicolas.working_hours_end * 60)) :=
  availableSlots_partition demoStore nicolas 0 (by decide) (by decide) (by decide)

end Booking

namespace Frontend

/-- Counterexample for C8: with five prior messages in the chat state
(as after two full exchanges plus the greeting), `handleSubmit` posts a
`conversation_history` of six entries — the five most recent prior
messages plus the current input — so the history is not capped at 5. -/
theorem conversationHistory_not_capped_at_five :
    ¬ ((conversationHistory
        [ChatMsg.mk "system" "Hello! How can I help you today?",
         ChatMsg.mk "user" "hi",
         ChatMsg.mk "system" "How can I help?",
         ChatMsg.mk "user" "book a plumber",
         ChatMsg.mk "system" "For when?"]
        "tomorrow at 10am").length ≤ 5) := by decide

/-- C8 (amended): the conversation history passed to the backend entry
point contains the `min(#messages, 5)` most recent prior turns plus the
current user message — at most 6 entries, never more. -/
theorem conversationHistory_length (messages : List ChatMsg) (input : String) :
    (conversationHistory messages input).length = min messages.length 5 + 1 ∧
      (conversationHistory messages input).length ≤ 6 := by
  unfold conversationHistory
  rw [List.length_map, List.length_append, List.length_drop]
  constructor
  · simp only [List.length_singleton]
    omega
  · simp only [List.length_singleton]
    omega

/-- Counterexample for C9: the response record the presentation layer
consumes has no `bookingCreated` field; the committed-booking signal it
reads is the field named `booking`. -/
theorem processResponse_field_named_booking :
    ("bookingCreated" ∉ processResponseFieldsRead) ∧
      "booking" ∈ processResponseFieldsRead := by decide

/-- C9 (amended): the result the presentation layer consumes is a record
with a string `message` (and optional `error`) and a `booking` field
holding the created booking when one was committed; the frontend treats
the request as having created a booking — and refreshes the booking
list — iff `error` is absent and `booking` is present. -/
theorem handleResponse_spec (r : ProcessResponse) :
    ((handleResponse r).2 = true ↔ r.error = none ∧ r.booking.isSome = true) ∧
    (r.error = none → handleResponse r = (r.message, r.booking.isSome)) ∧
    (∀ e, r.error = some e → handleResponse r = (e, false)) := by
  cases herr : r.error <;> simp [handleResponse, herr]

/-- Witness for C9 (amended): a response with no error and a booking
shows the message and reports a created booking. -/
theorem handleResponse_spec_witness :
    handleResponse
        { message := "Booking created", error := none,
          booking := some Booking.seedBooking } =
      ("Booking created", true) :=
  (handleResponse_spec
    { message := "Booking created", error := none,
      booking := some Booking.seedBooking }).2.1 rfl

/-- C10: submitting the chat form with input whose trimmed text is empty
performs no request and leaves the whole component state (messages,
input, loading) unchanged; the submit control is disabled for such
input. -/
theorem handleSubmit_empty_input (st : AppState)
    (h : trimJS st.userInput = "") :
    handleSubmitStep st = (st, none) ∧
      submitDisabled st.loading st.userInput = true := by
  constructor
  · unfold handleSubmitStep
    rw [h]
    simp
  · unfold submitDisabled
    rw [h]
    simp

/-- Witness for C10: whitespace-only input "   " on the initial app state
triggers no request, changes nothing, and the send button is disabled. -/
theorem handleSubmit_empty_input_witness :
    handleSubmitStep
        { userInput := "   ",
          messages := [ChatMsg.mk "system" "Hello! How can I help you today?"],
          loading := false } =
      ({ userInput := "   ",
         messages := [ChatMsg.mk "system" "Hello! How can I help you today?"],
         loading := false }, none) ∧
      submitDisabled false "   " = true :=
  handleSubmit_empty_input
    { userInput := "   ",
      messages := [ChatMsg.mk "system" "Hello! How can I help you today?"],
      loading := false }
    (by decide)

end Frontend
